import Mathlib

/-!
Verification development for the MongoDB change-stream consistency worker.
The worker (src/index.js and the unnamed worker variant) consumes MongoDB
change streams for the users, articles and favorites collections and applies
denormalizing writes to articles, comments and tags, persisting a resume
token per stream after each successfully handled event.

The definitions below are a shallow embedding of that code: each JavaScript
function is translated into an executable Lean function over explicit state,
with JavaScript truthiness modelled on optional string/identifier values and
thrown exceptions modelled with Except.
-/

set_option maxHeartbeats 1000000
set_option linter.unusedVariables false

namespace ChangeStreams

/-- Truthiness of a JavaScript value that is either a string, null or
undefined: `none` (null/undefined) and the empty string are falsy. -/
def truthy : Option String → Bool
  | none => false
  | some s => s != ""

/-- Operation type of a MongoDB change event (the closed enum the worker
inspects). -/
inductive OpType where
  | insert
  | update
  | delete
  deriving DecidableEq, Repr

/-! Users stream: `profileChanged` and `handleUserChange`. -/

/-- Projection of a user document to the fields read by `handleUserChange`
(`const { username, image, bio } = change.fullDocument`). A missing field is
`none`. -/
structure UserDoc where
  username : Option String
  image : Option String
  bio : Option String
  deriving DecidableEq, Repr

/-- Change event on the users collection. `updatedFields` is the key set of
`change.updateDescription.updatedFields`; it is `none` when the event carries
no `updateDescription` (as for insert/delete events). `fullDocument` is
`none` when the post-image is null/undefined. -/
structure UserChange where
  operationType : OpType
  documentKey : Nat
  updatedFields : Option (List String)
  fullDocument : Option UserDoc
  deriving DecidableEq, Repr

/-- MongoDB only attaches an update description to update events; insert and
delete events never carry an updated-field set. -/
def UserChange.wellFormed (c : UserChange) : Prop :=
  c.operationType ≠ OpType.update → c.updatedFields = none

/-- Embedding of `profileChanged` (src/unnamed/part_000 lines 114-117):
`const fields = change.updateDescription?.updatedFields || {};
return "username" in fields || "image" in fields || "bio" in fields;`. -/
def profileChanged (change : UserChange) : Bool :=
  let fields := change.updatedFields.getD []
  fields.contains "username" || fields.contains "image" || fields.contains "bio"

/-- Denormalized author fields living on an article or comment document. -/
structure AuthorFields where
  authorUsername : Option String
  authorImage : Option String
  authorBio : Option String
  deriving DecidableEq, Repr

/-- Projection of an article or comment document to the fields
`handleUserChange` reads and writes. -/
structure AuthoredDoc where
  authorId : Nat
  author : AuthorFields
  deriving DecidableEq, Repr

/-- Partial `$set` map built by `handleUserChange`; `none` means the key is
absent from the update object. -/
structure ProfileUpdate where
  authorUsername : Option String
  authorImage : Option String
  authorBio : Option String
  deriving DecidableEq, Repr

/-- Embedding of the update-map construction in `handleUserChange`
(`if (username) update.authorUsername = username;` and likewise for image
and bio): a field enters the map exactly when its post-image value is
truthy. -/
def mkProfileUpdate (doc : UserDoc) : ProfileUpdate :=
  { authorUsername := if truthy doc.username then doc.username else none
    authorImage := if truthy doc.image then doc.image else none
    authorBio := if truthy doc.bio then doc.bio else none }

/-- Test for `Object.keys(update).length === 0`. -/
def emptyUpdate (u : ProfileUpdate) : Bool :=
  u.authorUsername.isNone && u.authorImage.isNone && u.authorBio.isNone

/-- Effect of one `$set` entry on one stored field: an entry present in the
map overwrites the field, an absent entry leaves it alone. -/
def setField (new old : Option String) : Option String :=
  match new with
  | some v => some v
  | none => old

/-- Effect of applying the `$set` update map to the author fields of one
document. -/
def applyUpdate (u : ProfileUpdate) (a : AuthorFields) : AuthorFields :=
  { authorUsername := setField u.authorUsername a.authorUsername
    authorImage := setField u.authorImage a.authorImage
    authorBio := setField u.authorBio a.authorBio }

/-- Embedding of `updateMany({ authorId: userId }, { $set: update })`. -/
def updateManyByAuthor (uid : Nat) (u : ProfileUpdate) (docs : List AuthoredDoc) :
    List AuthoredDoc :=
  docs.map (fun d => if d.authorId == uid then { d with author := applyUpdate u d.author } else d)

/-- Derived state touched by the users handler: the articles and comments
collections, projected to author fields. -/
structure UserDerivedState where
  articles : List AuthoredDoc
  comments : List AuthoredDoc
  deriving DecidableEq, Repr

/-- Embedding of `handleUserChange` (src/unnamed/part_000 lines 119-135).
Destructuring a null/undefined `fullDocument` throws a TypeError in
JavaScript, modelled as `Except.error ()`; it happens before any write. -/
def handleUserChange (change : UserChange) (s : UserDerivedState) :
    Except Unit UserDerivedState :=
  if !profileChanged change then Except.ok s
  else
    match change.fullDocument with
    | none => Except.error ()
    | some doc =>
      let userId := change.documentKey
      let update := mkProfileUpdate doc
      if emptyUpdate update then Except.ok s
      else
        Except.ok
          { articles := updateManyByAuthor userId update s.articles
            comments := updateManyByAuthor userId update s.comments }

/-- Final derived state after the stream runner delivers one user event: on
handler success the new state, on a thrown error the old state (the runner
catches the error and keeps going). -/
def deliverUser (change : UserChange) (s : UserDerivedState) : UserDerivedState :=
  match handleUserChange change s with
  | Except.ok s2 => s2
  | Except.error _ => s

/-! Articles stream: `handleArticleChange` over the tags collection. -/

/-- Tags collection state: maps a tag name (the record `_id`) to its
`articleCount`, `none` when no record with that `_id` exists. -/
abbrev TagState := String → Option Int

/-- Embedding of `updateOne({ _id: t }, { $inc: { articleCount: 1 } },
{ upsert: true })`: increment when present, insert with count 1 when
absent. -/
def tagUpsertInc (t : String) (s : TagState) : TagState :=
  fun x => if x = t then some ((s t).getD 0 + 1) else s x

/-- Embedding of the removed-tag step: `findOneAndUpdate({ _id: t },
{ $inc: { articleCount: -1 } }, { returnDocument: "after" })` followed by
`if (res?.articleCount <= 0) deleteOne({ _id: t })`. A missing record is a
no-op (`res` is null, and `undefined <= 0` is false). -/
def tagDecMaybeDelete (t : String) (s : TagState) : TagState :=
  match s t with
  | none => s
  | some c =>
    if c - 1 ≤ 0 then fun x => if x = t then none else s x
    else fun x => if x = t then some (c - 1) else s x

/-- Projection of an article document to the field `handleArticleChange`
reads: `tagList`, possibly absent. -/
structure ArticleDoc where
  tagList : Option (List String)
  deriving DecidableEq, Repr

/-- Change event on the articles collection, projected to the images
`handleArticleChange` reads. -/
structure ArticleChange where
  fullDocumentBeforeChange : Option ArticleDoc
  fullDocument : Option ArticleDoc
  deriving DecidableEq, Repr

/-- Tag list read from an optional image:
`change.fullDocumentBeforeChange?.tagList || []`. -/
def tagsOf (img : Option ArticleDoc) : List String :=
  (img.bind ArticleDoc.tagList).getD []

/-- Embedding of `handleArticleChange` (src/unnamed/part_000 lines
138-165). -/
def handleArticleChange (change : ArticleChange) (tags : TagState) : TagState :=
  let oldTags := tagsOf change.fullDocumentBeforeChange
  let newTags := tagsOf change.fullDocument
  let added := newTags.filter (fun t => !oldTags.contains t)
  let s1 := added.foldl (fun s t => tagUpsertInc t s) tags
  let removed := oldTags.filter (fun t => !newTags.contains t)
  removed.foldl (fun s t => tagDecMaybeDelete t s) s1

/-- Per-tag effect the specification describes: increment (upserting at 1)
for tags in `newTags − oldTags`, decrement for tags in `oldTags − newTags`
deleting the record when the resulting count is at most 0, leave every other
tag alone. Modelled from the spec for comparison with
`handleArticleChange`. -/
def claimedTagEffect (oldTags newTags : List String) (s : TagState) : TagState :=
  fun t =>
    if newTags.contains t && !oldTags.contains t then some ((s t).getD 0 + 1)
    else if oldTags.contains t && !newTags.contains t then
      match s t with
      | none => none
      | some c => if c - 1 ≤ 0 then none else some (c - 1)
    else s t

/-! Favorites stream: `handleFavoriteChange` over the articles collection. -/

/-- Projection of a favorite document to the field the handler reads:
`articleId`, absent when the image or the field is missing. -/
structure FavoriteDoc where
  articleId : Option Nat
  deriving DecidableEq, Repr

/-- Change event on the favorites collection. -/
structure FavoriteChange where
  operationType : OpType
  fullDocument : Option FavoriteDoc
  fullDocumentBeforeChange : Option FavoriteDoc
  deriving DecidableEq, Repr

/-- Articles collection state as seen by the favorites handler: maps an
article `_id` to its `favoritesCount`, `none` when the article is absent. -/
abbrev ArticlesState := Nat → Option Int

/-- Embedding of `updateOne({ _id: articleId }, { $inc: { favoritesCount:
delta } })` without upsert: a missing article is a no-op. -/
def articleIncFav (aid : Nat) (delta : Int) (s : ArticlesState) : ArticlesState :=
  fun x => if x = aid then (s x).map (fun c => c + delta) else s x

/-- Embedding of `handleFavoriteChange` (src/unnamed/part_000 lines
168-191). A falsy (missing) `articleId` skips the write; update events fall
through both branches, so nothing is written and nothing can throw. -/
def handleFavoriteChange (change : FavoriteChange) (articles : ArticlesState) :
    ArticlesState :=
  match change.operationType with
  | OpType.insert =>
    match change.fullDocument.bind FavoriteDoc.articleId with
    | some aid => articleIncFav aid 1 articles
    | none => articles
  | OpType.delete =>
    match change.fullDocumentBeforeChange.bind FavoriteDoc.articleId with
    | some aid => articleIncFav aid (-1) articles
    | none => articles
  | OpType.update => articles

/-! Stream runner: `startChangeStream`'s consumption loop. -/

/-- One element of a change stream: the event payload plus the opaque resume
token `change._id` (modelled as a natural number). -/
structure StreamEvent (ε : Type) where
  id : Nat
  payload : ε
  deriving DecidableEq, Repr

/-- State owned by one stream runner: the derived state its handler writes,
the persisted resume token (the `sync_state` record) and the error log. -/
structure RunnerState (σ : Type) where
  derived : σ
  resumeToken : Option Nat
  errorLog : List String
  deriving DecidableEq, Repr

/-- Embedding of one iteration of the `for await` loop in
`startChangeStream` (src/unnamed/part_000 lines 96-110): invoke the handler;
on success persist the event's token; on a thrown error log
`"<label> change processing error:"` and leave the stored state alone. -/
def processEvent {ε σ : Type} (handler : ε → σ → Except Unit σ) (label : String)
    (e : StreamEvent ε) (rs : RunnerState σ) : RunnerState σ :=
  match handler e.payload rs.derived with
  | Except.ok d => { rs with derived := d, resumeToken := some e.id }
  | Except.error _ =>
    { rs with errorLog := rs.errorLog ++ [label ++ " change processing error:"] }

/-- The consumption loop over a finite prefix of the stream. -/
def runStream {ε σ : Type} (handler : ε → σ → Except Unit σ) (label : String)
    (events : List (StreamEvent ε)) (rs : RunnerState σ) : RunnerState σ :=
  events.foldl (fun r e => processEvent handler label e r) rs

/-! Sharding: `createShardingPipeline`. -/

/-- Aggregation stage built by `createShardingPipeline`: match documents
whose hashed `documentKey._id`, taken absolute, is congruent to
`shardIndex` modulo `shardCount`. -/
inductive PipelineStage where
  | matchHashMod (shardCount shardIndex : Int)
  deriving DecidableEq, Repr

/-- Embedding of `createShardingPipeline` (src/unnamed/part_000 lines
229-253): an empty pipeline when `shardCount == 1`, otherwise a single
`$match` stage. -/
def createShardingPipeline (shardCount shardIndex : Int) : List PipelineStage :=
  if shardCount = 1 then [] else [PipelineStage.matchHashMod shardCount shardIndex]

/-- Semantics of one pipeline stage on a document identifier, with the
server-side `$toHashedIndexKey` abstracted as a function `hash`:
`$eq [ $mod [ $abs ( $toLong hash ), shardCount ], shardIndex ]`. -/
def stageMatches (hash : Nat → Int) : PipelineStage → Nat → Bool
  | PipelineStage.matchHashMod c i, docId => (((hash docId).natAbs : Int) % c) == i

/-- A document passes a pipeline when it passes every stage; the empty
pipeline passes everything. -/
def pipelineMatches (hash : Nat → Int) (p : List PipelineStage) (docId : Nat) : Bool :=
  p.all (fun st => stageMatches hash st docId)

/-! Startup configuration: the `MONGODB_URI` check and `getShardConfig`. -/

/-- Environment variables the worker reads; `none` is an unset variable. -/
structure Env where
  MONGODB_URI : Option String
  SHARD_COUNT : Option String
  SHARD_INDEX : Option String
  deriving DecidableEq, Repr

/-- Value of a digit list read in base 10. -/
def digitsToNat (cs : List Char) : Nat :=
  cs.foldl (fun n c => n * 10 + (c.toNat - 48)) 0

/-- Embedding of JavaScript `parseInt` on decimal input: skip leading
whitespace, read an optional sign, then the maximal digit prefix; `none`
models `NaN` (no digits). -/
def parseIntJS (s : String) : Option Int :=
  let cs := s.data.dropWhile (fun c => c = ' ' || c = '\t' || c = '\n')
  match cs with
  | '-' :: r =>
    let ds := r.takeWhile Char.isDigit
    if ds.isEmpty then none else some (-(digitsToNat ds : Int))
  | '+' :: r =>
    let ds := r.takeWhile Char.isDigit
    if ds.isEmpty then none else some (digitsToNat ds : Int)
  | r =>
    let ds := r.takeWhile Char.isDigit
    if ds.isEmpty then none else some (digitsToNat ds : Int)

/-- Effective shard count before validation:
`env.SHARD_COUNT ? parseInt(env.SHARD_COUNT) : 1` (a falsy variable — unset
or empty — takes the default). `none` models `NaN`. -/
def effectiveShardCount (env : Env) : Option Int :=
  if truthy env.SHARD_COUNT then parseIntJS (env.SHARD_COUNT.getD "") else some 1

/-- Effective shard index before validation:
`env.SHARD_INDEX ? parseInt(env.SHARD_INDEX) : 0`. -/
def effectiveShardIndex (env : Env) : Option Int :=
  if truthy env.SHARD_INDEX then parseIntJS (env.SHARD_INDEX.getD "") else some 0

/-- Embedding of `getShardConfig` (src/unnamed/part_000 lines 211-227),
checking `isNaN(shardCount) || shardCount < 1`, then
`isNaN(shardIndex) || shardIndex < 0`, then `shardIndex >= shardCount`. -/
def getShardConfig (env : Env) : Except String (Int × Int) :=
  match effectiveShardCount env with
  | none => Except.error "SHARD_COUNT must be a positive number"
  | some c =>
    if c < 1 then Except.error "SHARD_COUNT must be a positive number"
    else
      match effectiveShardIndex env with
      | none => Except.error "SHARD_INDEX must be a non-negative number"
      | some i =>
        if i < 0 then Except.error "SHARD_INDEX must be a non-negative number"
        else if c ≤ i then Except.error "SHARD_INDEX must be less than SHARD_COUNT"
        else Except.ok (c, i)

/-- Startup validation in module order (src/unnamed/part_000 lines 6-9):
the `if (!MONGODB_URI) throw` check runs before `getShardConfig`, and both
run before any subscription is opened. -/
def startupValidate (env : Env) : Except String (Int × Int) :=
  if truthy env.MONGODB_URI then getShardConfig env
  else Except.error "Missing MONGODB_URI"

/-! Worker supervisor output: the readiness marker. -/

/-- The line `main` logs once it has connected
(src/unnamed/part_000 lines 15-17). -/
def connectedLine (i c : Int) : String :=
  "Connected to MongoDB Atlas (Shard " ++ toString i ++ "/" ++ toString c ++ ")"

/-- The readiness marker `main` logs after starting all three stream
runners (src/unnamed/part_000 line 77):
`__READY__SHARD__${SHARD_INDEX}_OF_${SHARD_COUNT}__`. -/
def readinessLine (i c : Int) : String :=
  "__READY__SHARD__" ++ toString i ++ "_OF_" ++ toString c ++ "__"

/-- Readiness line the specification claims, built from its words
(`READY shard <SHARD_INDEX> of <SHARD_COUNT>`) for comparison with
`readinessLine`. -/
def claimedReadinessLine (i c : Int) : String :=
  "READY shard " ++ toString i ++ " of " ++ toString c

/-- Lines `main` writes to standard output during bootstrap, in order: the
connection line, then — after the three `startChangeStream` calls — the
readiness marker. -/
def supervisorLogs (i c : Int) : List String :=
  [connectedLine i c, readinessLine i c]

/-- Projection of a document list to the stored `authorUsername` values. -/
def usernamesOf (l : List AuthoredDoc) : List (Option String) :=
  l.map (fun d => d.author.authorUsername)

/-- Projection of a document list to the stored `authorImage` values. -/
def imagesOf (l : List AuthoredDoc) : List (Option String) :=
  l.map (fun d => d.author.authorImage)

/-- Projection of a document list to the stored `authorBio` values. -/
def biosOf (l : List AuthoredDoc) : List (Option String) :=
  l.map (fun d => d.author.authorBio)

/-! Helper lemmas shared by the claim theorems. -/

theorem contains_eq_mem (l : List String) (a : String) :
    l.contains a = decide (a ∈ l) := by
  by_cases h : a ∈ l
  · simp [h, List.elem_iff.mpr h]
  · have h2 : ¬ l.contains a = true := fun hh => h (List.elem_iff.mp hh)
    simp [h, Bool.not_eq_true] at h2 ⊢
    try exact h2

theorem setField_idem (n o : Option String) : setField n (setField n o) = setField n o := by
  cases n <;> rfl

theorem applyUpdate_idem (u : ProfileUpdate) (a : AuthorFields) :
    applyUpdate u (applyUpdate u a) = applyUpdate u a := by
  simp [applyUpdate, setField_idem]

theorem updateManyByAuthor_idem (uid : Nat) (u : ProfileUpdate) (docs : List AuthoredDoc) :
    updateManyByAuthor uid u (updateManyByAuthor uid u docs)
      = updateManyByAuthor uid u docs := by
  unfold updateManyByAuthor
  rw [List.map_map]
  apply List.map_congr_left
  intro d _
  cases h : d.authorId == uid <;> simp [Function.comp, h, applyUpdate_idem]

/-- C1: re-delivering the same event to a handler twice produces the same
final derived state as delivering it once. As stated over all three
handlers the claim fails (see the counterexample below); the user-profile
handler, whose writes are plain field sets, is idempotent. -/
theorem handleUserChange_idempotent (change : UserChange) (s : UserDerivedState) :
    deliverUser change (deliverUser change s) = deliverUser change s := by
  cases hp : profileChanged change with
  | false => simp [deliverUser, handleUserChange, hp]
  | true =>
    cases hd : change.fullDocument with
    | none => simp [deliverUser, handleUserChange, hp, hd]
    | some doc =>
      cases he : emptyUpdate (mkProfileUpdate doc) with
      | true => simp [deliverUser, handleUserChange, hp, hd, he]
      | false => simp [deliverUser, handleUserChange, hp, hd, he, updateManyByAuthor_idem]

/-- C1 counterexample: the tag-maintenance handler is not idempotent. For
the event that changes the tag list from `[]` to `["x"]`, starting from an
empty tags collection, one delivery leaves `articleCount = 1` for `"x"` but
a second delivery of the same event bumps it to `2`. -/
theorem handleArticleChange_not_idempotent :
    handleArticleChange
        { fullDocumentBeforeChange := some { tagList := some [] }
          fullDocument := some { tagList := some ["x"] } }
        (handleArticleChange
          { fullDocumentBeforeChange := some { tagList := some [] }
            fullDocument := some { tagList := some ["x"] } }
          (fun _ => none)) "x"
      = some 2
    ∧ handleArticleChange
        { fullDocumentBeforeChange := some { tagList := some [] }
          fullDocument := some { tagList := some ["x"] } }
        (fun _ => none) "x"
      = some 1 := by
  exact ⟨rfl, rfl⟩

/-- C2: in each stream-runner iteration the stored resume token is advanced
to the event's position exactly on handler success; on a handler error the
stored state is untouched, the labelled error is logged, and the loop goes
on to the remaining events. -/
theorem runnerStep_spec {ε σ : Type} (handler : ε → σ → Except Unit σ) (label : String)
    (e : StreamEvent ε) (rs : RunnerState σ) (rest : List (StreamEvent ε)) :
    ((processEvent handler label e rs).resumeToken =
        match handler e.payload rs.derived with
        | Except.ok _ => some e.id
        | Except.error _ => rs.resumeToken)
    ∧ (∀ u : Unit, handler e.payload rs.derived = Except.error u →
        (processEvent handler label e rs).resumeToken = rs.resumeToken
        ∧ (processEvent handler label e rs).derived = rs.derived
        ∧ (processEvent handler label e rs).errorLog
            = rs.errorLog ++ [label ++ " change processing error:"])
    ∧ (∀ d : σ, handler e.payload rs.derived = Except.ok d →
        (processEvent handler label e rs).resumeToken = some e.id
        ∧ (processEvent handler label e rs).derived = d
        ∧ (processEvent handler label e rs).errorLog = rs.errorLog)
    ∧ runStream handler label (e :: rest) rs
        = runStream handler label rest (processEvent handler label e rs) := by
  refine ⟨?_, ?_, ?_, rfl⟩
  · cases h : handler e.payload rs.derived <;> simp [processEvent, h]
  · intro u h
    simp [processEvent, h]
  · intro d h
    simp [processEvent, h]

/-- C2 witness: a concrete failing handler invocation leaves the token and
derived state alone and logs one labelled error line. -/
theorem runnerStep_spec_witness :
    (processEvent (fun (n : Nat) (s : Nat) => if n = 0 then Except.error () else Except.ok (s + n))
        "User" ⟨7, 0⟩ ⟨4, some 3, []⟩).resumeToken = some 3
    ∧ (processEvent (fun (n : Nat) (s : Nat) => if n = 0 then Except.error () else Except.ok (s + n))
        "User" ⟨7, 0⟩ ⟨4, some 3, []⟩).derived = 4
    ∧ (processEvent (fun (n : Nat) (s : Nat) => if n = 0 then Except.error () else Except.ok (s + n))
        "User" ⟨7, 0⟩ ⟨4, some 3, []⟩).errorLog = ["User change processing error:"] := by
  have h := (runnerStep_spec
      (fun (n : Nat) (s : Nat) => if n = 0 then Except.error () else Except.ok (s + n))
      "User" ⟨7, 0⟩ ⟨4, some 3, []⟩ []).2.1 () rfl
  simpa using h

/-- C3: the users handler writes only when the event's updated-field set
meets `{username, image, bio}`; an event with no updated-field set (as
every insert or delete event is) causes no writes. -/
theorem handleUserChange_trigger (change : UserChange) (s : UserDerivedState) :
    ((∀ f ∈ change.updatedFields.getD [], f ≠ "username" ∧ f ≠ "image" ∧ f ≠ "bio") →
        handleUserChange change s = Except.ok s)
    ∧ (change.updatedFields = none → handleUserChange change s = Except.ok s) := by
  constructor
  · intro h
    have hu : ¬ "username" ∈ change.updatedFields.getD [] := fun hm => (h _ hm).1 rfl
    have hi : ¬ "image" ∈ change.updatedFields.getD [] := fun hm => (h _ hm).2.1 rfl
    have hb : ¬ "bio" ∈ change.updatedFields.getD [] := fun hm => (h _ hm).2.2 rfl
    simp [handleUserChange, profileChanged, contains_eq_mem, hu, hi, hb]
  · intro h
    simp [handleUserChange, profileChanged, h]

/-- C3 witness: a delete event (no updated-field set) leaves the derived
state alone. -/
theorem handleUserChange_trigger_witness :
    handleUserChange ⟨OpType.delete, 1, none, none⟩
        ⟨[⟨1, ⟨some "a", none, none⟩⟩], []⟩
      = Except.ok ⟨[⟨1, ⟨some "a", none, none⟩⟩], []⟩ :=
  (handleUserChange_trigger ⟨OpType.delete, 1, none, none⟩
    ⟨[⟨1, ⟨some "a", none, none⟩⟩], []⟩).2 rfl

theorem profileChanged_false_of_no_fields (change : UserChange)
    (h : ∀ f ∈ change.updatedFields.getD [], f ≠ "username" ∧ f ≠ "image" ∧ f ≠ "bio") :
    profileChanged change = false := by
  have hu : ¬ "username" ∈ change.updatedFields.getD [] := fun hm => (h _ hm).1 rfl
  have hi : ¬ "image" ∈ change.updatedFields.getD [] := fun hm => (h _ hm).2.1 rfl
  have hb : ¬ "bio" ∈ change.updatedFields.getD [] := fun hm => (h _ hm).2.2 rfl
  simp [profileChanged, contains_eq_mem, hu, hi, hb]

theorem deliverUser_cases (change : UserChange) (s : UserDerivedState) :
    deliverUser change s = s
    ∨ ∃ doc, change.fullDocument = some doc
        ∧ profileChanged change = true
        ∧ emptyUpdate (mkProfileUpdate doc) = false
        ∧ deliverUser change s =
            { articles := updateManyByAuthor change.documentKey (mkProfileUpdate doc) s.articles
              comments := updateManyByAuthor change.documentKey (mkProfileUpdate doc) s.comments } := by
  cases hp : profileChanged change with
  | false => left; simp [deliverUser, handleUserChange, hp]
  | true =>
    cases hd : change.fullDocument with
    | none => left; simp [deliverUser, handleUserChange, hp, hd]
    | some doc =>
      cases he : emptyUpdate (mkProfileUpdate doc) with
      | true => left; simp [deliverUser, handleUserChange, hp, hd, he]
      | false =>
        right
        exact ⟨doc, rfl, rfl, he, by simp [deliverUser, handleUserChange, hp, hd, he]⟩

theorem updateManyByAuthor_length (uid : Nat) (u : ProfileUpdate) (docs : List AuthoredDoc) :
    (updateManyByAuthor uid u docs).length = docs.length := by
  simp [updateManyByAuthor]

theorem updateManyByAuthor_get_ne (uid : Nat) (u : ProfileUpdate) (docs : List AuthoredDoc)
    (i : Nat) (h1 : i < docs.length)
    (hne : (docs.get ⟨i, h1⟩).authorId ≠ uid) :
    (updateManyByAuthor uid u docs)[i]? = some (docs.get ⟨i, h1⟩) := by
  have hb : ((docs.get ⟨i, h1⟩).authorId == uid) = false := beq_eq_false_iff_ne.mpr hne
  simp only [List.get_eq_getElem] at hb
  simp [updateManyByAuthor, List.getElem?_eq_getElem, h1, List.get_eq_getElem, hb]
  intro hcontra
  rw [hcontra] at hb
  simp at hb

theorem usernamesOf_updateMany_none (uid : Nat) (u : ProfileUpdate) (docs : List AuthoredDoc)
    (h : u.authorUsername = none) :
    usernamesOf (updateManyByAuthor uid u docs) = usernamesOf docs := by
  unfold usernamesOf updateManyByAuthor
  rw [List.map_map]
  apply List.map_congr_left
  intro d _
  cases hc : d.authorId == uid <;> simp [Function.comp, hc, applyUpdate, setField, h]

theorem imagesOf_updateMany_none (uid : Nat) (u : ProfileUpdate) (docs : List AuthoredDoc)
    (h : u.authorImage = none) :
    imagesOf (updateManyByAuthor uid u docs) = imagesOf docs := by
  unfold imagesOf updateManyByAuthor
  rw [List.map_map]
  apply List.map_congr_left
  intro d _
  cases hc : d.authorId == uid <;> simp [Function.comp, hc, applyUpdate, setField, h]

theorem biosOf_updateMany_none (uid : Nat) (u : ProfileUpdate) (docs : List AuthoredDoc)
    (h : u.authorBio = none) :
    biosOf (updateManyByAuthor uid u docs) = biosOf docs := by
  unfold biosOf updateManyByAuthor
  rw [List.map_map]
  apply List.map_congr_left
  intro d _
  cases hc : d.authorId == uid <;> simp [Function.comp, hc, applyUpdate, setField, h]

/-- C4 counterexample: the update map is not restricted to the fields that
changed. For an update event whose updated-field set is exactly `{bio}` the
handler also overwrites `authorUsername` on a matching article (here a
stale copy `"stale"` becomes the post-image's `"u"`), so the map contained
a field that did not change. -/
theorem userUpdate_touches_unchanged_fields :
    usernamesOf (deliverUser
        ⟨OpType.update, 1, some ["bio"], some ⟨some "u", some "i", some "b"⟩⟩
        ⟨[⟨1, ⟨some "stale", some "i0", some "b0"⟩⟩], []⟩).articles = [some "u"]
    ∧ usernamesOf
        (⟨[⟨1, ⟨some "stale", some "i0", some "b0"⟩⟩], []⟩ : UserDerivedState).articles
        = [some "stale"]
    ∧ "username" ∉
        ((⟨OpType.update, 1, some ["bio"], some ⟨some "u", some "i", some "b"⟩⟩ :
            UserChange).updatedFields.getD []) := by
  refine ⟨rfl, rfl, by decide⟩

/-- C4 (amended): the update map applied by `handleUserChange` contains
every profile field whose post-image value is truthy, whether or not that
field changed; documents whose `authorId` differs from the event's user are
untouched; and an update event in which no relevant field changed produces
zero derived writes. -/
theorem handleUserChange_truthy_map_frame (change : UserChange) (doc : UserDoc)
    (s : UserDerivedState) (hdoc : change.fullDocument = some doc) :
    ((truthy doc.username = true → (mkProfileUpdate doc).authorUsername = doc.username)
      ∧ (truthy doc.image = true → (mkProfileUpdate doc).authorImage = doc.image)
      ∧ (truthy doc.bio = true → (mkProfileUpdate doc).authorBio = doc.bio))
    ∧ ((deliverUser change s).articles.length = s.articles.length
      ∧ (deliverUser change s).comments.length = s.comments.length)
    ∧ (∀ i (h1 : i < s.articles.length),
        (s.articles.get ⟨i, h1⟩).authorId ≠ change.documentKey →
          (deliverUser change s).articles[i]? = some (s.articles.get ⟨i, h1⟩))
    ∧ (∀ i (h1 : i < s.comments.length),
        (s.comments.get ⟨i, h1⟩).authorId ≠ change.documentKey →
          (deliverUser change s).comments[i]? = some (s.comments.get ⟨i, h1⟩))
    ∧ ((∀ f ∈ change.updatedFields.getD [], f ≠ "username" ∧ f ≠ "image" ∧ f ≠ "bio") →
        deliverUser change s = s) := by
  have hmap : (truthy doc.username = true → (mkProfileUpdate doc).authorUsername = doc.username)
      ∧ (truthy doc.image = true → (mkProfileUpdate doc).authorImage = doc.image)
      ∧ (truthy doc.bio = true → (mkProfileUpdate doc).authorBio = doc.bio) := by
    refine ⟨?_, ?_, ?_⟩ <;> intro h <;> simp [mkProfileUpdate, h]
  obtain hcase | ⟨doc2, hd2, hp2, he2, hcase⟩ := deliverUser_cases change s
  · refine ⟨hmap, by rw [hcase]; exact ⟨rfl, rfl⟩, ?_, ?_, fun _ => hcase⟩
    · intro i h1 hne
      rw [hcase]
      simp [List.getElem?_eq_getElem, h1, List.get_eq_getElem]
    · intro i h1 hne
      rw [hcase]
      simp [List.getElem?_eq_getElem, h1, List.get_eq_getElem]
  · refine ⟨hmap, ?_, ?_, ?_, ?_⟩
    · rw [hcase]
      exact ⟨updateManyByAuthor_length _ _ _, updateManyByAuthor_length _ _ _⟩
    · intro i h1 hne
      rw [hcase]
      exact updateManyByAuthor_get_ne _ _ _ i h1 hne
    · intro i h1 hne
      rw [hcase]
      exact updateManyByAuthor_get_ne _ _ _ i h1 hne
    · intro h
      rw [profileChanged_false_of_no_fields change h] at hp2
      cases hp2

/-- C4 witness: a truthy, unchanged `username` still enters the update
map. -/
theorem handleUserChange_truthy_map_frame_witness :
    (mkProfileUpdate ⟨some "u", none, some "b"⟩).authorUsername = some "u" := by
  have h := (handleUserChange_truthy_map_frame
      ⟨OpType.update, 1, some ["bio"], some ⟨some "u", none, some "b"⟩⟩
      ⟨some "u", none, some "b"⟩ ⟨[], []⟩ rfl).1.1 (by decide)
  simpa using h

/-- C10: a profile field whose post-image value is falsy is omitted from
the update map, so the denormalized copies keep their previous values, and
when every relevant field is falsy the handler performs zero writes. -/
theorem handleUserChange_falsy_kept (change : UserChange) (doc : UserDoc)
    (s : UserDerivedState) (hdoc : change.fullDocument = some doc) :
    (truthy doc.username = false →
        usernamesOf (deliverUser change s).articles = usernamesOf s.articles
        ∧ usernamesOf (deliverUser change s).comments = usernamesOf s.comments)
    ∧ (truthy doc.image = false →
        imagesOf (deliverUser change s).articles = imagesOf s.articles
        ∧ imagesOf (deliverUser change s).comments = imagesOf s.comments)
    ∧ (truthy doc.bio = false →
        biosOf (deliverUser change s).articles = biosOf s.articles
        ∧ biosOf (deliverUser change s).comments = biosOf s.comments)
    ∧ (truthy doc.username = false ∧ truthy doc.image = false ∧ truthy doc.bio = false →
        deliverUser change s = s) := by
  obtain hcase | ⟨doc2, hd2, hp2, he2, hcase⟩ := deliverUser_cases change s
  · rw [hcase]
    exact ⟨fun _ => ⟨rfl, rfl⟩, fun _ => ⟨rfl, rfl⟩, fun _ => ⟨rfl, rfl⟩, fun _ => rfl⟩
  · have hdd : doc2 = doc := by
      have h12 := hdoc.symm.trans hd2
      exact ((Option.some.injEq doc doc2).mp h12).symm
    subst hdd
    refine ⟨?_, ?_, ?_, ?_⟩
    · intro h
      have hn : (mkProfileUpdate doc2).authorUsername = none := by simp [mkProfileUpdate, h]
      rw [hcase]
      exact ⟨usernamesOf_updateMany_none _ _ _ hn, usernamesOf_updateMany_none _ _ _ hn⟩
    · intro h
      have hn : (mkProfileUpdate doc2).authorImage = none := by simp [mkProfileUpdate, h]
      rw [hcase]
      exact ⟨imagesOf_updateMany_none _ _ _ hn, imagesOf_updateMany_none _ _ _ hn⟩
    · intro h
      have hn : (mkProfileUpdate doc2).authorBio = none := by simp [mkProfileUpdate, h]
      rw [hcase]
      exact ⟨biosOf_updateMany_none _ _ _ hn, biosOf_updateMany_none _ _ _ hn⟩
    · intro h
      have he : emptyUpdate (mkProfileUpdate doc2) = true := by
        simp [emptyUpdate, mkProfileUpdate, h.1, h.2.1, h.2.2]
      rw [he] at he2
      cases he2

/-- C10 witness: an update that clears `username` (falsy post-image value)
writes the truthy `image` but leaves the stale `authorUsername` copies in
place. -/
theorem handleUserChange_falsy_kept_witness :
    usernamesOf (deliverUser
        ⟨OpType.update, 5, some ["username"], some ⟨none, some "img", none⟩⟩
        ⟨[⟨5, ⟨some "old", none, none⟩⟩], []⟩).articles = [some "old"] := by
  have h := ((handleUserChange_falsy_kept
      ⟨OpType.update, 5, some ["username"], some ⟨none, some "img", none⟩⟩
      ⟨none, some "img", none⟩ ⟨[⟨5, ⟨some "old", none, none⟩⟩], []⟩ rfl).1 (by decide)).1
  rw [h]
  rfl

theorem tagUpsertInc_self (a : String) (s : TagState) :
    tagUpsertInc a s a = some ((s a).getD 0 + 1) := by
  simp [tagUpsertInc]

theorem tagUpsertInc_other (a x : String) (s : TagState) (h : x ≠ a) :
    tagUpsertInc a s x = s x := by
  simp [tagUpsertInc, h]

theorem tagDecMaybeDelete_self (a : String) (s : TagState) :
    tagDecMaybeDelete a s a
      = match s a with
        | none => none
        | some c => if c - 1 ≤ 0 then none else some (c - 1) := by
  unfold tagDecMaybeDelete
  cases hsa : s a with
  | none => simp [hsa]
  | some c =>
    by_cases h : c - 1 ≤ 0 <;> simp [h]

theorem tagDecMaybeDelete_other (a x : String) (s : TagState) (h : x ≠ a) :
    tagDecMaybeDelete a s x = s x := by
  unfold tagDecMaybeDelete
  cases hsa : s a with
  | none => rfl
  | some c =>
    by_cases hc : c - 1 ≤ 0 <;> simp [hc, h]

theorem foldl_tagUpsertInc (l : List String) (hl : l.Nodup) (s : TagState) (t : String) :
    (l.foldl (fun a b => tagUpsertInc b a) s) t
      = if t ∈ l then some ((s t).getD 0 + 1) else s t := by
  induction l generalizing s with
  | nil => simp
  | cons a l ih =>
    rw [List.foldl_cons]
    have hnd := List.nodup_cons.mp hl
    rw [ih hnd.2]
    by_cases hta : t = a
    · subst hta
      simp [hnd.1, tagUpsertInc_self]
    · have hother := tagUpsertInc_other a t s hta
      simp [List.mem_cons, hta, hother]

theorem foldl_tagDecMaybeDelete (l : List String) (hl : l.Nodup) (s : TagState) (t : String) :
    (l.foldl (fun a b => tagDecMaybeDelete b a) s) t
      = if t ∈ l then
          (match s t with
           | none => none
           | some c => if c - 1 ≤ 0 then none else some (c - 1))
        else s t := by
  induction l generalizing s with
  | nil => simp
  | cons a l ih =>
    rw [List.foldl_cons]
    have hnd := List.nodup_cons.mp hl
    rw [ih hnd.2]
    by_cases hta : t = a
    · subst hta
      simp [hnd.1, tagDecMaybeDelete_self]
    · have hother := tagDecMaybeDelete_other a t s hta
      simp [List.mem_cons, hta, hother]

/-- C5 (amended): over duplicate-free tag lists (the invariant of article
`tagList`s; the claim's set differences are only well defined there),
`handleArticleChange` increments `articleCount` by 1 — upserting at 1 — for
exactly the tags in `newTags − oldTags`, decrements for exactly the tags in
`oldTags − newTags` deleting a record whose resulting count is ≤ 0, and
leaves every other tag record untouched. With duplicated tags a tag is
processed once per occurrence, not once per set element (see the
counterexample). -/
theorem handleArticleChange_matches_claim (ch : ArticleChange) (oldTags newTags : List String)
    (s : TagState) (hold : tagsOf ch.fullDocumentBeforeChange = oldTags)
    (hnew : tagsOf ch.fullDocument = newTags) (h1 : oldTags.Nodup) (h2 : newTags.Nodup)
    (t : String) :
    handleArticleChange ch s t = claimedTagEffect oldTags newTags s t := by
  have hA : (newTags.filter (fun x => !oldTags.contains x)).Nodup := h2.filter _
  have hR : (oldTags.filter (fun x => !newTags.contains x)).Nodup := h1.filter _
  show (((tagsOf ch.fullDocumentBeforeChange).filter
        (fun x => !(tagsOf ch.fullDocument).contains x)).foldl
      (fun a b => tagDecMaybeDelete b a)
      (((tagsOf ch.fullDocument).filter
          (fun x => !(tagsOf ch.fullDocumentBeforeChange).contains x)).foldl
        (fun a b => tagUpsertInc b a) s)) t = _
  rw [hold, hnew]
  rw [foldl_tagDecMaybeDelete _ hR, foldl_tagUpsertInc _ hA]
  by_cases hN : t ∈ newTags <;> by_cases hO : t ∈ oldTags <;>
    simp [claimedTagEffect, List.mem_filter, contains_eq_mem, hN, hO]

/-- C5 counterexample: with a duplicated tag the handler does not implement
a set difference. Changing the tag list from `[]` to `["a", "a"]` on an
empty tags collection upserts `"a"` twice, ending at `articleCount = 2`,
while the claimed per-set-element effect ends at 1. -/
theorem handleArticleChange_duplicates_differ :
    handleArticleChange
        { fullDocumentBeforeChange := some { tagList := some [] }
          fullDocument := some { tagList := some ["a", "a"] } }
        (fun _ => none) "a"
      = some 2
    ∧ claimedTagEffect [] ["a", "a"] (fun _ => none) "a" = some 1
    ∧ handleArticleChange
          { fullDocumentBeforeChange := some { tagList := some [] }
            fullDocument := some { tagList := some ["a", "a"] } }
          (fun _ => none) "a"
        ≠ claimedTagEffect [] ["a", "a"] (fun _ => none) "a" := by
  refine ⟨rfl, rfl, by decide⟩

/-- C5 witness: the claim's own example, `["tech","js"]` changing to
`["js","node","mongodb"]` with prior counts `tech: 1, js: 5`: `"node"` and
`"mongodb"` are created at 1, `"tech"` reaches 0 and its record is deleted,
`"js"` is untouched. -/
theorem handleArticleChange_matches_claim_witness :
    handleArticleChange
        { fullDocumentBeforeChange := some { tagList := some ["tech", "js"] }
          fullDocument := some { tagList := some ["js", "node", "mongodb"] } }
        (fun x => if x = "tech" then some 1 else if x = "js" then some 5 else none) "node"
      = some 1
    ∧ handleArticleChange
        { fullDocumentBeforeChange := some { tagList := some ["tech", "js"] }
          fullDocument := some { tagList := some ["js", "node", "mongodb"] } }
        (fun x => if x = "tech" then some 1 else if x = "js" then some 5 else none) "mongodb"
      = some 1
    ∧ handleArticleChange
        { fullDocumentBeforeChange := some { tagList := some ["tech", "js"] }
          fullDocument := some { tagList := some ["js", "node", "mongodb"] } }
        (fun x => if x = "tech" then some 1 else if x = "js" then some 5 else none) "tech"
      = none
    ∧ handleArticleChange
        { fullDocumentBeforeChange := some { tagList := some ["tech", "js"] }
          fullDocument := some { tagList := some ["js", "node", "mongodb"] } }
        (fun x => if x = "tech" then some 1 else if x = "js" then some 5 else none) "js"
      = some 5 := by
  refine ⟨?_, ?_, ?_, ?_⟩ <;>
    exact (handleArticleChange_matches_claim
      { fullDocumentBeforeChange := some { tagList := some ["tech", "js"] }
        fullDocument := some { tagList := some ["js", "node", "mongodb"] } }
      ["tech", "js"] ["js", "node", "mongodb"]
      (fun x => if x = "tech" then some 1 else if x = "js" then some 5 else none)
      rfl rfl (by decide) (by decide) _).trans (by decide)

/-- C6: for `shardCount ≥ 1` the sharding predicate assigns every document
identifier to exactly one `shardIndex` in `[0, shardCount)` — the per-index
pipelines cover all identifiers disjointly — and for `shardCount = 1` the
pipeline is empty, matching every event. The predicate is a pure function
of the hashed identifier, so the assignment is stable across calls. -/
theorem createShardingPipeline_partitions (hash : Nat → Int) (c : Int) (hc : 1 ≤ c)
    (docId : Nat) :
    (∃! i : Int, 0 ≤ i ∧ i < c ∧
        pipelineMatches hash (createShardingPipeline c i) docId = true)
    ∧ (c = 1 → ∀ i : Int, createShardingPipeline c i = [])
    ∧ (c = 1 → pipelineMatches hash (createShardingPipeline c 0) docId = true) := by
  refine ⟨?_, ?_, ?_⟩
  · by_cases h1 : c = 1
    · subst h1
      refine ⟨0, ⟨le_refl 0, by norm_num, by simp [createShardingPipeline, pipelineMatches]⟩, ?_⟩
      intro y hy
      obtain ⟨hy0, hy1, _⟩ := hy
      omega
    · refine ⟨((hash docId).natAbs : Int) % c, ⟨?_, ?_, ?_⟩, ?_⟩
      · exact Int.emod_nonneg _ (by omega)
      · exact Int.emod_lt_of_pos _ (by omega)
      · simp [createShardingPipeline, h1, pipelineMatches, stageMatches]
      · intro y hy
        obtain ⟨hy0, hyc, hym⟩ := hy
        simp [createShardingPipeline, h1, pipelineMatches, stageMatches] at hym
        simp only [Int.natCast_natAbs]
        omega
  · intro h i
    simp [createShardingPipeline, h]
  · intro h
    simp [createShardingPipeline, h, pipelineMatches]

/-- C6 witness: with three shards, document 7 (hashed to itself here) lands
in exactly one shard. -/
theorem createShardingPipeline_partitions_witness :
    ∃! i : Int, 0 ≤ i ∧ i < 3 ∧
      pipelineMatches (fun n => (n : Int)) (createShardingPipeline 3 i) 7 = true :=
  (createShardingPipeline_partitions (fun n => (n : Int)) 3 (by norm_num) 7).1

/-- C7: the favorites handler increments `favoritesCount` of the post-image's
`articleId` on insert, decrements that of the pre-image's `articleId` on
delete, touches no other article, performs no writes on update events, and
treats a missing article id as a silent no-op (in this embedding the handler
is a total function, so no error can be raised). -/
theorem handleFavoriteChange_spec (ch : FavoriteChange) (s : ArticlesState) :
    (∀ aid, ch.operationType = OpType.insert →
        ch.fullDocument.bind FavoriteDoc.articleId = some aid →
          handleFavoriteChange ch s aid = (s aid).map (fun c => c + 1)
          ∧ ∀ b, b ≠ aid → handleFavoriteChange ch s b = s b)
    ∧ (∀ aid, ch.operationType = OpType.delete →
        ch.fullDocumentBeforeChange.bind FavoriteDoc.articleId = some aid →
          handleFavoriteChange ch s aid = (s aid).map (fun c => c - 1)
          ∧ ∀ b, b ≠ aid → handleFavoriteChange ch s b = s b)
    ∧ (ch.operationType = OpType.update → handleFavoriteChange ch s = s)
    ∧ (ch.operationType = OpType.insert →
        ch.fullDocument.bind FavoriteDoc.articleId = none →
          handleFavoriteChange ch s = s)
    ∧ (ch.operationType = OpType.delete →
        ch.fullDocumentBeforeChange.bind FavoriteDoc.articleId = none →
          handleFavoriteChange ch s = s) := by
  refine ⟨?_, ?_, ?_, ?_, ?_⟩
  · intro aid hop haid
    constructor
    · simp [handleFavoriteChange, hop, haid, articleIncFav]
    · intro b hb
      simp [handleFavoriteChange, hop, haid, articleIncFav, hb]
  · intro aid hop haid
    constructor
    · simp [handleFavoriteChange, hop, haid, articleIncFav]
      cases s aid <;> simp [Int.sub_eq_add_neg]
    · intro b hb
      simp [handleFavoriteChange, hop, haid, articleIncFav, hb]
  · intro hop
    simp [handleFavoriteChange, hop]
  · intro hop haid
    simp [handleFavoriteChange, hop, haid]
  · intro hop haid
    simp [handleFavoriteChange, hop, haid]

/-- C7 witness: a concrete insert bumps the referenced article from 10 to
11 and leaves another article alone. -/
theorem handleFavoriteChange_spec_witness :
    handleFavoriteChange ⟨OpType.insert, some ⟨some 2⟩, none⟩
        (fun a => if a = 2 then some 10 else some 0) 2 = some 11
    ∧ handleFavoriteChange ⟨OpType.insert, some ⟨some 2⟩, none⟩
        (fun a => if a = 2 then some 10 else some 0) 3 = some 0 := by
  have h := (handleFavoriteChange_spec ⟨OpType.insert, some ⟨some 2⟩, none⟩
      (fun a => if a = 2 then some 10 else some 0)).1 2 rfl rfl
  exact ⟨h.1.trans (by decide), (h.2 3 (by decide)).trans (by decide)⟩

/-- C8: startup validation fails, before any subscription is opened,
exactly when the connection string is falsy (absent or empty), or the
effective `SHARD_COUNT` — the parse of a provided value, the default 1
otherwise — is `NaN` or `< 1`, or the effective `SHARD_INDEX` is `NaN`,
`< 0` or `≥ SHARD_COUNT`; unset (or empty, which JavaScript truthiness
treats the same) variables default to 1 and 0. -/
theorem startup_validation_spec (env : Env) :
    ((∃ msg, startupValidate env = Except.error msg) ↔
      (truthy env.MONGODB_URI = false
        ∨ effectiveShardCount env = none
        ∨ (∃ c, effectiveShardCount env = some c ∧ c < 1)
        ∨ effectiveShardIndex env = none
        ∨ (∃ i, effectiveShardIndex env = some i ∧ i < 0)
        ∨ (∃ c i, effectiveShardCount env = some c ∧ effectiveShardIndex env = some i
            ∧ c ≤ i)))
    ∧ (env.SHARD_COUNT = none → effectiveShardCount env = some 1)
    ∧ (env.SHARD_COUNT = some "" → effectiveShardCount env = some 1)
    ∧ (env.SHARD_INDEX = none → effectiveShardIndex env = some 0)
    ∧ (env.SHARD_INDEX = some "" → effectiveShardIndex env = some 0)
    ∧ (∀ c i, startupValidate env = Except.ok (c, i) →
        effectiveShardCount env = some c ∧ effectiveShardIndex env = some i
        ∧ 1 ≤ c ∧ 0 ≤ i ∧ i < c) := by
  refine ⟨?_, ?_, ?_, ?_, ?_, ?_⟩
  · cases hu : truthy env.MONGODB_URI <;>
      cases hc : effectiveShardCount env <;>
        cases hi : effectiveShardIndex env <;>
          simp [startupValidate, getShardConfig, hu, hc, hi]
    all_goals (split_ifs <;> simp_all)
  · intro h
    simp [effectiveShardCount, truthy, h]
  · intro h
    simp [effectiveShardCount, truthy, h]
  · intro h
    simp [effectiveShardIndex, truthy, h]
  · intro h
    simp [effectiveShardIndex, truthy, h]
  · intro c i h
    revert h
    cases hu : truthy env.MONGODB_URI <;>
      cases hc : effectiveShardCount env <;>
        cases hi : effectiveShardIndex env <;>
          simp [startupValidate, getShardConfig, hu, hc, hi]
    all_goals (intro h; split_ifs at h <;> simp_all)

/-- C8 witness: with only a connection string set, validation succeeds with
the defaults `SHARD_COUNT = 1`, `SHARD_INDEX = 0`. -/
theorem startup_validation_spec_witness :
    effectiveShardCount ⟨some "mongodb://h", none, none⟩ = some 1
    ∧ effectiveShardIndex ⟨some "mongodb://h", none, none⟩ = some 0
    ∧ (1 : Int) ≤ 1 ∧ (0 : Int) ≤ 0 ∧ (0 : Int) < 1 := by
  have h := (startup_validation_spec ⟨some "mongodb://h", none, none⟩).2.2.2.2.2 1 0 (by rfl)
  exact ⟨h.1, h.2.1, h.2.2⟩

/-- C9 counterexample: the readiness marker actually written is
`__READY__SHARD__0_OF_1__`, not the claimed `READY shard 0 of 1`. -/
theorem readiness_line_differs :
    readinessLine 0 1 = "__READY__SHARD__0_OF_1__"
    ∧ claimedReadinessLine 0 1 = "READY shard 0 of 1"
    ∧ readinessLine 0 1 ≠ claimedReadinessLine 0 1 := by
  refine ⟨rfl, rfl, by decide⟩

/-- C9 (amended): after starting all stream runners the worker writes to
standard output a single readiness line of the exact form
`__READY__SHARD__<SHARD_INDEX>_OF_<SHARD_COUNT>__`, interpolating the
configured shard index and shard count; it is the last bootstrap log line
and occurs exactly once. -/
theorem readiness_marker_format (i c : Int) :
    (supervisorLogs i c).getLast? = some (readinessLine i c)
    ∧ readinessLine i c = "__READY__SHARD__" ++ toString i ++ "_OF_" ++ toString c ++ "__"
    ∧ (supervisorLogs i c).countP (fun l => l == readinessLine i c) = 1 := by
  have e1 : (connectedLine i c).data.head? = some 'C' := by
    simp only [connectedLine, String.data_append]
    rfl
  have e2 : (readinessLine i c).data.head? = some '_' := by
    simp only [readinessLine, String.data_append]
    rfl
  have hne : connectedLine i c ≠ readinessLine i c := by
    intro h
    rw [h] at e1
    exact absurd (e1.symm.trans e2) (by decide)
  have hb : (connectedLine i c == readinessLine i c) = false := beq_eq_false_iff_ne.mpr hne
  refine ⟨rfl, rfl, ?_⟩
  simp [supervisorLogs, List.countP_cons, hb]

end ChangeStreams
